import Mathlib

/-!
Verification development for the IPU3 statistics-driven control core of
libcamera: the autofocus contrast-search controller (`src/ipa/ipu3/algorithms/af.cpp`)
and the auto-exposure/gain controller (`src/ipa/ipu3/algorithms/agc.cpp`).

Doubles are embedded as rationals (`ℚ`); machine unsigned integers as `ℕ`,
with explicit truncation (`Nat.floor`, `% 2 ^ 32`, integer division) at the
points where the C++ source converts or divides integral values.  The C++
`sqrt` is abstracted as an arbitrary function parameter `sq : ℚ → ℚ`; the
properties that depend on it only need that it maps `[0, 1]` into `[0, 1]`,
which the real square root does on the speeds `1` and `1/5` that occur.
-/

namespace Ipu3

/-! Section: Autofocus controller (af.cpp) -/

/-- Maximum focus value of the VCM control (`MaxFocusSteps_`, af.cpp line 58). -/
def MaxFocusSteps : ℕ := 1023

/-- Minimum focus step for searching the appropriate focus (`MinSearchStep_`, af.cpp line 61). -/
def MinSearchStep : ℕ := 5

/-- Max ratio of variance change (`MaxChange_`, af.cpp line 64). -/
def MaxChange : ℚ := 4 / 5

/-- Private per-session state of the `Af` controller: `focus_`, `goodFocus_`
and `ignoreFrame_` (af.cpp, members of class `Af`). -/
structure AfState where
  focus : ℕ
  goodFocus : ℕ
  ignoreFrame : ℕ
deriving Repr, DecidableEq

/-- The AF section of the per-frame context: `context.frameContext.af`
(fields `focus`, `maxVariance`, `stable`). -/
structure AfFrameContext where
  focus : ℕ
  maxVariance : ℚ
  stable : Bool
deriving Repr, DecidableEq

/-- The branch condition `var_ratio > MaxChange_` of af.cpp line 198, where
`var_ratio = diff_var / maxVariance` (line 189) is a double division.  Under
the IEEE semantics of the source, a zero `maxVariance` with a nonzero
truncated difference gives `var_ratio = +inf`, which exceeds the threshold;
a zero difference gives `0.0 / 0.0 = NaN`, whose comparison is false.  For a
nonzero `maxVariance` the division is the exact rational one. -/
def afRatioExceeds (mv : ℚ) (diffVar : ℕ) : Bool :=
  if mv = 0 then decide (diffVar ≠ 0)
  else decide ((diffVar : ℚ) / mv > MaxChange)

/-- The two-mode state machine of `Af::process` (af.cpp lines 187-234), taking
the already computed frame variance `v` (`currentVariance_`).  In the stable
branch the source truncates `std::abs(currentVariance_ - maxVariance)` to a
`uint32_t` (af.cpp line 188) before dividing by `maxVariance`; the truncation
is embedded as `Nat.floor` and the division's zero-denominator IEEE cases by
`afRatioExceeds`. -/
def afProcess (s : AfState) (c : AfFrameContext) (v : ℚ) : AfState × AfFrameContext :=
  if c.stable then
    let diffVar : ℕ := ⌊|v - c.maxVariance|⌋₊
    if afRatioExceeds c.maxVariance diffVar then
      if s.ignoreFrame = 0 then
        ({ s with focus := 0, ignoreFrame := 60 },
         { c with maxVariance := 0, focus := 0, stable := false })
      else
        ({ s with ignoreFrame := s.ignoreFrame - 1 }, c)
    else
      ({ s with ignoreFrame := 10 }, c)
  else
    if s.ignoreFrame ≠ 0 then
      ({ s with ignoreFrame := s.ignoreFrame - 1 }, c)
    else
      let mv := if v > c.maxVariance then v else c.maxVariance
      let gf := if v > c.maxVariance then s.focus else s.goodFocus
      if s.focus > MaxFocusSteps then
        ({ s with goodFocus := gf },
         { c with maxVariance := mv, focus := gf, stable := true })
      else
        ({ s with focus := s.focus + MinSearchStep, goodFocus := gf },
         { c with maxVariance := mv, focus := s.focus + MinSearchStep })

/-- AF state right after `Af::configure` (af.cpp lines 114-143): the internal
scan position and best position are zero (constructor, af.cpp line 91) and
`ignoreFrame_` is 10. -/
def afInitState : AfState := ⟨0, 0, 10⟩

/-- AF frame-context fields written by `Af::configure`: focus 0, maxVariance 0,
stable false. -/
def afInitCtx : AfFrameContext := ⟨0, 0, false⟩

/-- A run of `Af::process` from the configured state, one call per frame.  The
frame variance is looked up from `v` at the current scan position, so `v` is
the variance-versus-lens-position response of the scene. -/
def afScan (v : ℕ → ℚ) : ℕ → AfState × AfFrameContext
  | 0 => (afInitState, afInitCtx)
  | n + 1 =>
      let p := afScan v n
      afProcess p.1 p.2 (v p.1.focus)

/-! Section: AF statistics: mean and variance of the y_table (af.cpp lines 157-184) -/

/-- Number of AF grid cells scanned: `IPU3_UAPI_AF_Y_TABLE_MAX_SIZE / 4`.
Modelled from the spec: the kernel uapi header is not part of the sources;
the spec only requires a "fixed maximum cell count" (§4.2 step 1). -/
def afMaxCells : ℕ := 4096

/-- Index of the loop variable `z` after the accumulation loop of
`Af::process` (af.cpp lines 169-173): the first index whose `y2_avg` is zero,
or `afMaxCells` when no cell is zero.  `start` is the next index to examine
and `fuel` the number of cells left. -/
def afFirstZero (buf : ℕ → ℕ) : ℕ → ℕ → ℕ
  | start, 0 => start
  | start, fuel + 1 => if buf start = 0 then start else afFirstZero buf (start + 1) fuel

/-- The value of `z` when the accumulation loop of `Af::process` exits. -/
def afZ (buf : ℕ → ℕ) : ℕ := afFirstZero buf 0 afMaxCells

/-- The value of `total` when the accumulation loop exits: the sum of the
first `z` cells (the breaking cell contributes zero). -/
def afTotal (buf : ℕ → ℕ) : ℕ := ∑ i in Finset.range (afZ buf), buf i

/-- The mean computed at af.cpp line 174, `mean = total / z`: an integer
division of two machine integers.  When `z = 0` (first cell already zero,
e.g. an all-zero buffer) the source divides by zero, which is undefined
behaviour that aborts the process; that case is `none`. -/
def afMeanOpt (buf : ℕ → ℕ) : Option ℕ :=
  if afZ buf = 0 then none else some (afTotal buf / afZ buf)

/-- The frame variance computed at af.cpp lines 177-184,
`currentVariance_ = var_sum / z`, with the same division-by-zero failure case
as the mean. -/
def afVarianceOpt (buf : ℕ → ℕ) : Option ℚ :=
  match afMeanOpt buf with
  | none => none
  | some mean =>
      some (((∑ i in Finset.range (afZ buf), ((buf i : ℤ) - (mean : ℤ)) ^ 2 : ℤ) : ℚ) / (afZ buf))

/-- Full `Af::process`: compute mean and variance from the statistics buffer,
then run the two-mode state machine.  `none` means the statistics loop hit
the integer division by zero. -/
def afProcessStats (s : AfState) (c : AfFrameContext) (buf : ℕ → ℕ) :
    Option (AfState × AfFrameContext) :=
  (afVarianceOpt buf).map (afProcess s c)

/-! Section: Af::configure (af.cpp lines 114-143) -/

/-- Result of `Af::configure`: the returned status, the reset frame context,
the reset ignore counter, and the scan region start coordinates
`(bdsOutputSize.width / 2) - 64` and `(bdsOutputSize.height / 2) - 64`,
computed in unsigned 32-bit arithmetic (wrapping below zero). -/
structure AfConfigureResult where
  ret : ℤ
  frameAf : AfFrameContext
  ignoreFrame : ℕ
  startX : ℕ
  startY : ℕ
deriving Repr, DecidableEq

/-- Embedding of `Af::configure`.  It ignores the prior state entirely,
resets every AF field and always returns 0. -/
def afConfigure (w h : ℕ) : AfConfigureResult :=
  { ret := 0
    frameAf := ⟨0, 0, false⟩
    ignoreFrame := 10
    startX := (w / 2 + 2 ^ 32 - 64) % 2 ^ 32
    startY := (h / 2 + 2 ^ 32 - 64) % 2 ^ 32 }

/-! Section: Auto-exposure/gain controller (agc.cpp) -/

/-- Limits for analogue gain values (agc.cpp lines 49-50). -/
def kMinAnalogueGain : ℚ := 1

/-- Upper analogue gain limit (agc.cpp line 50). -/
def kMaxAnalogueGain : ℚ := 8

/-- Hard shutter-speed ceiling `kMaxShutterSpeed = 60ms` (agc.cpp line 53),
in seconds. -/
def kMaxShutterSpeed : ℚ := 3 / 50

/-- Number of histogram bins (agc.cpp line 56). -/
def knumHistogramBins : ℕ := 256

/-- Target value for the top 2% of the histogram (agc.cpp line 59). -/
def kEvGainTarget : ℚ := 1 / 2

/-- Number of startup frames with instant filter response (agc.cpp line 62). -/
def kNumStartupFrames : ℕ := 10

/-- Relative luminance target (agc.cpp line 70). -/
def kRelativeLuminanceTarget : ℚ := 4 / 25

/-- One cell of the AWB statistics buffer: the per-cell channel averages
`R_avg`, `Gr_avg`, `Gb_avg`, `B_avg` (each a `uint8_t`). -/
structure AwbCell where
  R : ℕ
  Gr : ℕ
  Gb : ℕ
  B : ℕ
deriving Repr, DecidableEq

/-- Grid geometry used by the AGC: `grid.width`, `grid.height` and the
configured `stride_`. -/
structure AgcGrid where
  width : ℕ
  height : ℕ
  stride : ℕ
deriving Repr, DecidableEq

/-- Raw session configuration supplied to `Agc::configure`: sensor line
length and pixel rate, and the shutter/gain ranges from the IPA context. -/
structure AgcRawConfig where
  lineLength : ℕ
  pixelRate : ℕ
  minShutter : ℚ
  maxShutter : ℚ
  minGain : ℚ
  maxGain : ℚ
deriving Repr, DecidableEq

/-- The limits resolved by `Agc::configure` (agc.cpp lines 90-98):
`lineDuration_`, `minShutterSpeed_`, `maxShutterSpeed_`, `minAnalogueGain_`,
`maxAnalogueGain_`. -/
structure AgcCfg where
  lineDuration : ℚ
  minShutter : ℚ
  maxShutter : ℚ
  minGain : ℚ
  maxGain : ℚ
deriving Repr, DecidableEq

/-- Embedding of the limit resolution in `Agc::configure`: the line duration
is `lineLength / pixelRate`, the configured shutter ceiling is clamped to
`kMaxShutterSpeed` and the gain range to `[kMinAnalogueGain, kMaxAnalogueGain]`.
The minimum shutter speed is taken as configured, unclamped. -/
def agcConfigure (raw : AgcRawConfig) : AgcCfg :=
  { lineDuration := (raw.lineLength : ℚ) / (raw.pixelRate : ℚ)
    minShutter := raw.minShutter
    maxShutter := min raw.maxShutter kMaxShutterSpeed
    minGain := max raw.minGain kMinAnalogueGain
    maxGain := min raw.maxGain kMaxAnalogueGain }

/-- Return value of `Agc::configure` (agc.cpp line 104): unconditionally 0. -/
def agcConfigureRet (_ : AgcRawConfig) : ℤ := 0

/-- The per-frame context exposure seeded by `Agc::configure`
(agc.cpp line 102): `minShutterSpeed_ / lineDuration_` truncated to the
unsigned integer context field. -/
def agcConfigureCtxExposure (raw : AgcRawConfig) : ℕ :=
  ⌊(agcConfigure raw).minShutter / (agcConfigure raw).lineDuration⌋₊

/-! Section: Brightness measurement (agc.cpp lines 113-141) and the
spec-modelled histogram -/

/-- Histogram of averaged green values built by `Agc::measureBrightness`:
for bin `b`, the number of grid cells whose `(Gr_avg + Gb_avg) / 2`
(integer division) equals `b`. -/
def agcHist (grid : AgcGrid) (stats : ℕ → AwbCell) (b : ℕ) : ℕ :=
  ∑ y in Finset.range grid.height, ∑ x in Finset.range grid.width,
    if ((stats (y * grid.stride + x)).Gr + (stats (y * grid.stride + x)).Gb) / 2 = b
    then 1 else 0

/-- Cumulative count of the histogram below bin `b`. -/
def histCumul (hist : ℕ → ℕ) (b : ℕ) : ℕ := ∑ i in Finset.range b, hist i

/-- Modelled from the spec: `Histogram::interQuantileMean` lives in
`src/ipa/libipa/histogram.cpp`, which is not among the sources.  Spec §4.1
defines it as "the count-weighted mean bin index over the half-open
cumulative range [lo, hi)", tolerating all-zero histograms (result 0).
`binWeight` is the share of bin `b`'s count whose cumulative position falls
inside `[lo, hi)` of the total count. -/
def binWeight (hist : ℕ → ℕ) (lo hi : ℚ) (b : ℕ) : ℚ :=
  max 0 (min (histCumul hist (b + 1) : ℚ) hi - max (histCumul hist b : ℚ) lo)

/-- Modelled from the spec: the count-weighted mean bin index of the part of
the histogram between cumulative fractions `qlo` and `qhi` (spec §4.1);
an empty range yields 0 (`x / 0 = 0` in `ℚ`). -/
def interQuantileMean (hist : ℕ → ℕ) (qlo qhi : ℚ) : ℚ :=
  let t : ℚ := histCumul hist knumHistogramBins
  (∑ b in Finset.range knumHistogramBins, (b : ℚ) * binWeight hist (qlo * t) (qhi * t) b) /
    (∑ b in Finset.range knumHistogramBins, binWeight hist (qlo * t) (qhi * t) b)

/-- Embedding of `Agc::measureBrightness` (agc.cpp lines 113-141): the
inter-quantile mean of the top 2% of the green histogram. -/
def measureBrightness (grid : AgcGrid) (stats : ℕ → AwbCell) : ℚ :=
  interQuantileMean (agcHist grid stats) (98 / 100) 1

/-- The quantile-based gain of `Agc::process` (agc.cpp line 324):
`kEvGainTarget * knumHistogramBins / iqMean`, dividing by the raw
inter-quantile mean with no epsilon. -/
def agcIqMeanGain (grid : AgcGrid) (stats : ℕ → AwbCell) : ℚ :=
  kEvGainTarget * (knumHistogramBins : ℚ) / measureBrightness grid stats

/-! Section: Relative luminance estimation (agc.cpp lines 272-305) -/

/-- AWB gain triplet from the frame context (`frameContext.awb.gains`). -/
structure AwbGains where
  red : ℚ
  green : ℚ
  blue : ℚ
deriving Repr, DecidableEq

/-- Embedding of `Agc::estimateLuminance`: per-channel averages are
multiplied by the trial `gain` and saturated at 255, summed over the grid,
weighted by the AWB gains and the Rec. 601 coefficients, and normalized.
`G_avg` is the `uint8_t` average `(Gr_avg + Gb_avg) / 2` (integer
division). -/
def estimateLuminance (awb : AwbGains) (grid : AgcGrid) (stats : ℕ → AwbCell)
    (gain : ℚ) : ℚ :=
  let redSum := ∑ y in Finset.range grid.height, ∑ x in Finset.range grid.width,
    min (((stats (y * grid.stride + x)).R : ℚ) * gain) 255
  let greenSum := ∑ y in Finset.range grid.height, ∑ x in Finset.range grid.width,
    min (((((stats (y * grid.stride + x)).Gr + (stats (y * grid.stride + x)).Gb) / 2 : ℕ) : ℚ) * gain) 255
  let blueSum := ∑ y in Finset.range grid.height, ∑ x in Finset.range grid.width,
    min (((stats (y * grid.stride + x)).B : ℚ) * gain) 255
  let ySum := redSum * awb.red * (299 / 1000) + greenSum * awb.green * (587 / 1000)
              + blueSum * awb.blue * (114 / 1000)
  ySum / ((grid.height : ℚ) * (grid.width : ℚ)) / 255

/-- One gain-correction factor of the luminance loop (agc.cpp line 340):
`min(10.0, yTarget / (yValue + .001))`, with the additive epsilon floor on
the luminance estimate. -/
def agcExtraGain (awb : AwbGains) (grid : AgcGrid) (stats : ℕ → AwbCell)
    (gain : ℚ) : ℚ :=
  min 10 (kRelativeLuminanceTarget / (estimateLuminance awb grid stats gain + 1 / 1000))

/-- The iterative loop of `Agc::process` (agc.cpp lines 336-348): multiply
the running gain by the correction factor, stopping after the multiply once
the factor drops below 1.01, for at most `fuel` iterations. -/
def yGainLoop (awb : AwbGains) (grid : AgcGrid) (stats : ℕ → AwbCell) :
    ℕ → ℚ → ℚ
  | 0, y => y
  | fuel + 1, y =>
      let extra := agcExtraGain awb grid stats y
      let y' := y * extra
      if extra < 101 / 100 then y' else yGainLoop awb grid stats fuel y'

/-- The luminance-based gain estimate computed by `Agc::process`: eight
iterations starting from gain 1. -/
def agcYGain (awb : AwbGains) (grid : AgcGrid) (stats : ℕ → AwbCell) : ℚ :=
  yGainLoop awb grid stats 8 1

/-! Section: Temporal filter (agc.cpp lines 146-172) and exposure split
(agc.cpp lines 180-245) -/

/-- Embedding of `Agc::filterExposure`.  `sq` abstracts the C++ `sqrt`;
`fc` is `frameCount_`, `filtered` is `filteredExposure_` and `current` is
`currentExposure_`.  The startup window uses speed 1, otherwise 1/5; when
the filtered value lies strictly between 0.8 and 1.2 times the new target
the speed becomes `sq speed`; a zero filter state is seeded directly. -/
def filterExposure (sq : ℚ → ℚ) (fc : ℕ) (filtered current : ℚ) : ℚ :=
  let speed0 : ℚ := if fc < kNumStartupFrames then 1 else 1 / 5
  if filtered = 0 then current
  else
    let speed := if filtered < 12 / 10 * current ∧ filtered > 8 / 10 * current
                 then sq speed0 else speed0
    speed * current + filtered * (1 - speed)

/-- The C++ `std::clamp(v, lo, hi)`: `v < lo ? lo : hi < v ? hi : v`. -/
def clampQ (v lo hi : ℚ) : ℚ := if v < lo then lo else if hi < v then hi else v

/-- Outputs of `Agc::computeExposure` (agc.cpp lines 180-245): the clamped
target exposure value `currentExposure_`, the updated `filteredExposure_`,
the split shutter time and gain, and the two values written to the frame
context.  `frameContext.agc.exposure` is an integer line count (spec §6), so
the double `shutterTime / lineDuration_` is truncated on assignment. -/
structure AgcOut where
  currentExposure : ℚ
  filtered : ℚ
  shutterTime : ℚ
  stepGain : ℚ
  ctxExposure : ℕ
  ctxGain : ℚ
deriving Repr, DecidableEq

/-- Embedding of `Agc::computeExposure` followed by the filter: the target
exposure value is the sensor's effective exposure times the larger of the
two gain estimates, clamped to `maxShutter * maxGain`, filtered, and split
into shutter time and analogue gain. -/
def computeExposure (cfg : AgcCfg) (sq : ℚ → ℚ) (fc : ℕ) (filtered : ℚ)
    (sensorExposure : ℕ) (sensorGain yGain iqMeanGain : ℚ) : AgcOut :=
  let evGain := max yGain iqMeanGain
  let currentShutter := (sensorExposure : ℚ) * cfg.lineDuration
  let effectiveExposureValue := currentShutter * sensorGain
  let maxTotalExposure := cfg.maxShutter * cfg.maxGain
  let current := min (effectiveExposureValue * evGain) maxTotalExposure
  let f' := filterExposure sq fc filtered current
  let shutterTime := clampQ (f' / cfg.minGain) cfg.minShutter cfg.maxShutter
  let stepGain := clampQ (f' / shutterTime) cfg.minGain cfg.maxGain
  { currentExposure := current
    filtered := f'
    shutterTime := shutterTime
    stepGain := stepGain
    ctxExposure := ⌊shutterTime / cfg.lineDuration⌋₊
    ctxGain := stepGain }

/-- Per-frame inputs to one `Agc::process` call, as seen by
`computeExposure`: the sensor's applied exposure and gain from the frame
context and the two gain estimates derived from the statistics. -/
structure AgcInput where
  sensorExposure : ℕ
  sensorGain : ℚ
  yGain : ℚ
  iqMeanGain : ℚ
deriving Repr, DecidableEq

/-- A run of `Agc::process` calls: each call filters the exposure and
increments `frameCount_` (agc.cpp line 351).  The state is
`(frameCount_, filteredExposure_)`. -/
def agcRun (cfg : AgcCfg) (sq : ℚ → ℚ) : List AgcInput → ℕ × ℚ → ℕ × ℚ
  | [], st => st
  | i :: rest, st =>
      agcRun cfg sq rest
        (st.1 + 1,
         (computeExposure cfg sq st.1 st.2 i.sensorExposure i.sensorGain i.yGain i.iqMeanGain).filtered)

/-- Witness scene response for the AF convergence theorem: variance strictly
decreasing in the lens position, so the peak is at position 0. -/
def afWitnessVar : ℕ → ℚ := fun x => 2000 - (x : ℚ)

/-! Section: Helper lemmas -/

theorem afProcess_ignore (s : AfState) (c : AfFrameContext) (v : ℚ)
    (hst : c.stable = false) (hig : s.ignoreFrame ≠ 0) :
    afProcess s c v = ({ s with ignoreFrame := s.ignoreFrame - 1 }, c) := by
  simp [afProcess, hst, hig]

theorem afProcess_advance (s : AfState) (c : AfFrameContext) (v : ℚ)
    (hst : c.stable = false) (hig : s.ignoreFrame = 0)
    (hf : ¬ s.focus > MaxFocusSteps) :
    afProcess s c v =
      if v > c.maxVariance then
        ({ s with focus := s.focus + MinSearchStep, goodFocus := s.focus },
         { c with maxVariance := v, focus := s.focus + MinSearchStep })
      else
        ({ s with focus := s.focus + MinSearchStep },
         { c with focus := s.focus + MinSearchStep }) := by
  simp only [afProcess, hst, hig, hf, Bool.false_eq_true, if_false, ne_eq,
    not_false_eq_true, not_true_eq_false]
  split <;> rfl

theorem afProcess_terminate (s : AfState) (c : AfFrameContext) (v : ℚ)
    (hst : c.stable = false) (hig : s.ignoreFrame = 0)
    (hf : s.focus > MaxFocusSteps) :
    afProcess s c v =
      if v > c.maxVariance then
        ({ s with goodFocus := s.focus },
         { c with maxVariance := v, focus := s.focus, stable := true })
      else
        (s, { c with focus := s.goodFocus, stable := true }) := by
  simp only [afProcess, hst, hig, hf, Bool.false_eq_true, if_false, ne_eq,
    not_false_eq_true, not_true_eq_false, if_true]
  split
  · rfl
  · rw [← hig]

theorem afScan_ignore_phase (v : ℕ → ℚ) : ∀ k, k ≤ 10 →
    afScan v k = (⟨0, 0, 10 - k⟩, afInitCtx) := by
  intro k
  induction k with
  | zero => intro _; rfl
  | succ k ih =>
      intro hk
      have hk' : k ≤ 10 := Nat.le_of_succ_le hk
      simp only [afScan, ih hk']
      rw [afProcess_ignore _ _ _ rfl (by simp only []; show 10 - k ≠ 0; omega)]
      simp only [Prod.mk.injEq, AfState.mk.injEq, and_true, true_and]
      omega

theorem afScan_ten (v : ℕ → ℚ) : afScan v 10 = (⟨0, 0, 0⟩, afInitCtx) :=
  afScan_ignore_phase v 10 le_rfl

theorem afScan_succ (v : ℕ → ℚ) (m : ℕ) :
    afScan v (m + 1) =
      afProcess (afScan v m).1 (afScan v m).2 (v (afScan v m).1.focus) := rfl

theorem afScan_pos (v : ℕ → ℚ) : ∀ n, n ≤ 205 →
    (afScan v (10 + n)).1.focus = 5 * n ∧
    (afScan v (10 + n)).1.ignoreFrame = 0 ∧
    (afScan v (10 + n)).2.stable = false ∧
    (1 ≤ n → (afScan v (10 + n)).2.focus = 5 * n) := by
  intro n
  induction n with
  | zero => intro _; rw [afScan_ten]; exact ⟨rfl, rfl, rfl, by omega⟩
  | succ n ih =>
      intro hn
      obtain ⟨h1, h2, h3, _⟩ := ih (by omega)
      have hidx : 10 + (n + 1) = 10 + n + 1 := by omega
      have hf : ¬ (afScan v (10 + n)).1.focus > MaxFocusSteps := by
        rw [h1]; unfold MaxFocusSteps; omega
      rw [hidx, afScan_succ, afProcess_advance _ _ _ h3 h2 hf]
      split <;>
      · refine ⟨?_, ?_, ?_, fun _ => ?_⟩
        · simp only [h1, MinSearchStep]; omega
        · exact h2
        · exact h3
        · simp only [h1, MinSearchStep]; omega

/-- Variance values strictly decrease along the scanned positions past the
peak index `p`. -/
theorem afVar_dec_chain (v : ℕ → ℚ) (p : ℕ)
    (hdec : ∀ i, i < 205 → p ≤ i → v (5 * (i + 1)) < v (5 * i)) :
    ∀ n, p < n → n ≤ 205 → v (5 * n) < v (5 * p) := by
  intro n
  induction n with
  | zero => omega
  | succ n ih =>
      intro hpn hn
      rcases Nat.lt_or_ge p n with hlt | hge
      · exact lt_trans (hdec n (by omega) (by omega)) (ih hlt (by omega))
      · have hpe : p = n := by omega
        subst hpe
        exact hdec p (by omega) le_rfl

/-- Greedy-search invariant of the scanning phase under a strictly unimodal
variance response with peak at scan position `5 * p`: after the ten settle
frames and `n + 1` scored frames, the scan position is `5 * (n + 1)`, the
best position recorded so far is `5 * min n p`, and the best variance the
value there. -/
theorem afScan_unimodal_inv (v : ℕ → ℚ) (p : ℕ)
    (hinc : ∀ i, i < 205 → i + 1 ≤ p → v (5 * i) < v (5 * (i + 1)))
    (hdec : ∀ i, i < 205 → p ≤ i → v (5 * (i + 1)) < v (5 * i))
    (hnn : 0 ≤ v 0) :
    ∀ n, n < 205 →
      (afScan v (10 + (n + 1))).1 = ⟨5 * (n + 1), 5 * min n p, 0⟩ ∧
      (afScan v (10 + (n + 1))).2 = ⟨5 * (n + 1), v (5 * min n p), false⟩ := by
  intro n
  induction n with
  | zero =>
      intro _
      have hidx : 10 + (0 + 1) = 10 + 1 := by omega
      rw [hidx, afScan_succ, afScan_ten]
      rw [afProcess_advance _ _ _ rfl rfl (by show ¬ (0 : ℕ) > MaxFocusSteps; unfold MaxFocusSteps; omega)]
      simp only [Nat.min_zero, Nat.zero_min, Nat.mul_zero, Nat.mul_one]
      split
      · exact ⟨rfl, rfl⟩
      · rename_i hnot
        have h0 : v 0 = 0 := le_antisymm (not_lt.mp (by simpa using hnot)) hnn
        refine ⟨rfl, ?_⟩
        simp only [AfFrameContext.mk.injEq]
        exact ⟨rfl, h0.symm, rfl⟩
  | succ n ih =>
      intro hn
      obtain ⟨h1, h2⟩ := ih (by omega)
      have hidx : 10 + (n + 1 + 1) = 10 + (n + 1) + 1 := by omega
      rw [hidx, afScan_succ, h1, h2]
      rw [afProcess_advance _ _ _ rfl rfl
        (by show ¬ (5 * (n + 1) : ℕ) > MaxFocusSteps; unfold MaxFocusSteps; omega)]
      simp only []
      rcases le_or_lt (n + 1) p with hcase | hcase
      · -- still in the strictly increasing phase: the new score is a record
        have hmin : min n p = n := Nat.min_eq_left (by omega)
        have hlt : v (5 * (n + 1)) > v (5 * min n p) := by
          rw [hmin]; exact hinc n (by omega) hcase
        rw [if_pos hlt]
        have hmin' : min (n + 1) p = n + 1 := Nat.min_eq_left hcase
        constructor
        · show (⟨5 * (n + 1) + MinSearchStep, 5 * (n + 1), 0⟩ : AfState) =
            ⟨5 * (n + 1 + 1), 5 * min (n + 1) p, 0⟩
          rw [hmin']
          simp only [AfState.mk.injEq, MinSearchStep, and_true, true_and]
          omega
        · show (⟨5 * (n + 1) + MinSearchStep, v (5 * (n + 1)), false⟩ : AfFrameContext) =
            ⟨5 * (n + 1 + 1), v (5 * min (n + 1) p), false⟩
          rw [hmin']
          simp only [AfFrameContext.mk.injEq, MinSearchStep, and_true, true_and]
          omega
      · -- past the peak: the score is below the recorded maximum
        have hmin : min n p = p := Nat.min_eq_right (by omega)
        have hnlt : ¬ v (5 * (n + 1)) > v (5 * min n p) := by
          rw [hmin]
          exact not_lt.mpr (le_of_lt (afVar_dec_chain v p hdec (n + 1) hcase (by omega)))
        rw [if_neg hnlt]
        have hmin' : min (n + 1) p = p := Nat.min_eq_right (by omega)
        constructor
        · show (⟨5 * (n + 1) + MinSearchStep, 5 * min n p, 0⟩ : AfState) =
            ⟨5 * (n + 1 + 1), 5 * min (n + 1) p, 0⟩
          rw [hmin, hmin']
          simp only [AfState.mk.injEq, MinSearchStep, and_true, true_and]
          omega
        · show (⟨5 * (n + 1) + MinSearchStep, v (5 * min n p), false⟩ : AfFrameContext) =
            ⟨5 * (n + 1 + 1), v (5 * min (n + 1) p), false⟩
          rw [hmin, hmin']
          simp only [AfFrameContext.mk.injEq, MinSearchStep, and_true, true_and]
          omega

/-! Section: Claim C1 -/

/-- C1: in a scanning-mode execution of `Af::process` whose per-frame variance
scores form a strictly unimodal sequence over the scan positions (multiples of
the step 5) with peak at position `5 * p`, the scan terminates — once the scan
position exceeds the maximum lens position 1023 — by writing the peak position
into `focus` and `stable := true`; on every earlier scored frame it advances
the scan position by exactly 5 and greedily records the best variance and its
position.  Frames `1..10` are the settle frames consumed by the ignore budget;
frame `10 + n + 1` scores position `5 * n`; frame 216 terminates the scan. -/
theorem C1_af_scan_convergence (v : ℕ → ℚ) (p : ℕ) (hp : p ≤ 205)
    (hinc : ∀ i, i < 205 → i + 1 ≤ p → v (5 * i) < v (5 * (i + 1)))
    (hdec : ∀ i, i < 205 → p ≤ i → v (5 * (i + 1)) < v (5 * i))
    (hnn : 0 ≤ v 0) :
    (afScan v 216).2.focus = 5 * p ∧ (afScan v 216).2.stable = true ∧
    ∀ n, n < 205 →
      (afScan v (10 + (n + 1))).1.focus = 5 * (n + 1) ∧
      (afScan v (10 + (n + 1))).2.focus = 5 * (n + 1) ∧
      (afScan v (10 + (n + 1))).2.stable = false ∧
      (afScan v (10 + (n + 1))).1.goodFocus = 5 * min n p ∧
      (afScan v (10 + (n + 1))).2.maxVariance = v (5 * min n p) := by
  have hinv := afScan_unimodal_inv v p hinc hdec hnn
  obtain ⟨h1, h2⟩ := hinv 204 (by omega)
  have hidx : (216 : ℕ) = 10 + (204 + 1) + 1 := by omega
  have hterm : afScan v 216 =
      afProcess (afScan v (10 + (204 + 1))).1 (afScan v (10 + (204 + 1))).2
        (v (afScan v (10 + (204 + 1))).1.focus) := by
    rw [hidx, afScan_succ]
  rw [hterm, h1, h2] at *
  rw [afProcess_terminate _ _ _ rfl rfl
    (by show (5 * (204 + 1) : ℕ) > MaxFocusSteps; unfold MaxFocusSteps; omega)]
  constructor
  · -- the final context focus is the recorded peak
    rcases le_or_lt p 204 with hle | hgt
    · have hmin : min 204 p = p := Nat.min_eq_right hle
      have hnlt : ¬ v (5 * (204 + 1)) > v (5 * min 204 p) := by
        rw [hmin]
        exact not_lt.mpr (le_of_lt (afVar_dec_chain v p hdec 205 (by omega) (by omega)))
      rw [if_neg hnlt]
      show 5 * min 204 p = 5 * p
      rw [hmin]
    · have hp205 : p = 205 := by omega
      have hmin : min 204 p = 204 := Nat.min_eq_left (by omega)
      have hlt : v (5 * (204 + 1)) > v (5 * min 204 p) := by
        rw [hmin]
        exact hinc 204 (by omega) (by omega)
      rw [if_pos hlt]
      show 5 * (204 + 1) = 5 * p
      omega
  constructor
  · -- the scan is declared stable
    split <;> rfl
  · -- every earlier scored frame advances by 5 and tracks the greedy best
    intro n hn
    obtain ⟨g1, g2⟩ := hinv n hn
    rw [g1, g2]
    exact ⟨rfl, rfl, rfl, rfl, rfl⟩

/-- Witness for C1: the strictly decreasing response `afWitnessVar` peaks at
scan position 0, and the scan indeed converges to focus 0. -/
theorem C1_witness :
    (0 ≤ afWitnessVar 0) ∧
    (∀ i, i < 205 → 0 ≤ i → afWitnessVar (5 * (i + 1)) < afWitnessVar (5 * i)) ∧
    (afScan afWitnessVar 216).2.focus = 5 * 0 ∧
    (afScan afWitnessVar 216).2.stable = true := by
  have hdec : ∀ i, i < 205 → 0 ≤ i →
      afWitnessVar (5 * (i + 1)) < afWitnessVar (5 * i) := by
    intro i _ _
    unfold afWitnessVar
    have h1 : ((5 * (i + 1) : ℕ) : ℚ) = 5 * (i : ℚ) + 5 := by push_cast; ring
    have h2 : ((5 * i : ℕ) : ℚ) = 5 * (i : ℚ) := by push_cast; ring
    rw [h1, h2]
    linarith
  have hmain := C1_af_scan_convergence afWitnessVar 0 (by omega)
    (fun i _ h => absurd h (by omega)) hdec
    (by unfold afWitnessVar; norm_num)
  exact ⟨by unfold afWitnessVar; norm_num, hdec, hmain.1, hmain.2.1⟩

/-! Section: Claim C9 -/

/-- C9: every focus target that the scanning mode with an exhausted ignore
budget writes while advancing is the previous scan position plus exactly 5,
hence a positive multiple of 5 and at most 1025; the value 1025 — strictly
greater than the maximum lens position 1023 — is written on the last advancing
frame (frame 215), and the next scored frame terminates the scan. -/
theorem C9_scan_focus_writes (v : ℕ → ℚ) :
    (∀ n, n < 205 →
      (afScan v (10 + (n + 1))).2.focus = (afScan v (10 + n)).1.focus + MinSearchStep ∧
      (afScan v (10 + (n + 1))).2.focus = 5 * (n + 1) ∧
      5 ∣ (afScan v (10 + (n + 1))).2.focus ∧
      0 < (afScan v (10 + (n + 1))).2.focus ∧
      (afScan v (10 + (n + 1))).2.focus ≤ 1025) ∧
    (afScan v 215).2.focus = 1025 ∧ 1023 < 1025 ∧
    (afScan v 216).2.stable = true := by
  constructor
  · intro n hn
    obtain ⟨h1, h2, h3, _⟩ := afScan_pos v n (by omega)
    obtain ⟨_, _, _, h4⟩ := afScan_pos v (n + 1) (by omega)
    have hw : (afScan v (10 + (n + 1))).2.focus = 5 * (n + 1) := h4 (by omega)
    refine ⟨?_, hw, ?_, ?_, ?_⟩
    · rw [hw, h1]; unfold MinSearchStep; omega
    · rw [hw]; exact Dvd.intro (n + 1) rfl
    · rw [hw]; omega
    · rw [hw]; omega
  · obtain ⟨h1, h2, h3, h4⟩ := afScan_pos v 205 (by omega)
    have h215 : (10 : ℕ) + 205 = 215 := by omega
    rw [h215] at h1 h2 h3 h4
    refine ⟨by rw [h4 (by omega)], by omega, ?_⟩
    have hidx : (216 : ℕ) = 215 + 1 := by omega
    rw [hidx, afScan_succ]
    rw [afProcess_terminate _ _ _ h3 h2 (by rw [h1]; unfold MaxFocusSteps; omega)]
    split <;> rfl

/-- Witness for C9 at concrete inputs: the constant-zero variance response. -/
theorem C9_witness :
    (0 : ℕ) < 205 ∧
    (afScan (fun _ => (0 : ℚ)) (10 + (0 + 1))).2.focus = 5 * (0 + 1) ∧
    (afScan (fun _ => (0 : ℚ)) 215).2.focus = 1025 ∧
    (afScan (fun _ => (0 : ℚ)) 216).2.stable = true := by
  have h := C9_scan_focus_writes (fun _ => (0 : ℚ))
  exact ⟨by omega, (h.1 0 (by omega)).2.1, h.2.1, h.2.2.2⟩

/-! Section: Claim C2 -/

/-- C2 counterexample: in Stable mode with `maxVariance = 1` and a current
variance of `1.9`, the claim's relative change `|1.9 - 1| / 1 = 0.9` exceeds
the threshold `0.8` and the budget is already 0, so the claim predicts a reset
to Scanning mode; the code instead truncates `|1.9 - 1|` to the unsigned
integer 0, sees a ratio of 0, replenishes the budget to 10 and leaves the
context (focus, stable, maxVariance) unchanged. -/
theorem C2_counterexample :
    |(19 : ℚ) / 10 - 1| / 1 > MaxChange ∧
    (afProcess ⟨0, 0, 0⟩ ⟨3, 1, true⟩ (19 / 10)).2.stable = true ∧
    (afProcess ⟨0, 0, 0⟩ ⟨3, 1, true⟩ (19 / 10)).2.focus = 3 ∧
    (afProcess ⟨0, 0, 0⟩ ⟨3, 1, true⟩ (19 / 10)).1.ignoreFrame = 10 := by
  have h1 : |(9 : ℚ) / 10| = 9 / 10 := abs_of_nonneg (by norm_num)
  have h0 : ⌊(9 : ℚ) / 10⌋₊ = 0 := Nat.floor_eq_zero.mpr (by norm_num)
  norm_num [afProcess, afRatioExceeds, MaxChange, h1, h0]

/-- C2 (amended): in Stable mode the code compares the ratio of the truncated
difference `⌊|currentVariance - maxVariance|⌋₊` (the absolute difference is
cast to `uint32_t`, af.cpp line 188) over `maxVariance` against the threshold
0.8, with the IEEE double semantics of the division at a zero `maxVariance`:
`+inf` for a nonzero truncated difference (which exceeds the threshold, so a
stable lock at `maxVariance = 0` re-triggers on any variance of at least 1)
and `NaN` for a zero one (whose comparison is false).  When the condition
holds with an exhausted budget the controller resets to Scanning (maxVariance
0, focus 0, stable false, budget 60); with budget left it only decrements the
budget; otherwise it replenishes the budget to 10 and leaves focus/stable
unchanged. -/
theorem C2_stable_mode_step (s : AfState) (c : AfFrameContext) (v : ℚ)
    (hst : c.stable = true) :
    ((afRatioExceeds c.maxVariance ⌊|v - c.maxVariance|⌋₊ = true → s.ignoreFrame = 0 →
      afProcess s c v = ({ s with focus := 0, ignoreFrame := 60 },
        { c with maxVariance := 0, focus := 0, stable := false }))) ∧
    ((afRatioExceeds c.maxVariance ⌊|v - c.maxVariance|⌋₊ = true → s.ignoreFrame ≠ 0 →
      afProcess s c v = ({ s with ignoreFrame := s.ignoreFrame - 1 }, c))) ∧
    ((afRatioExceeds c.maxVariance ⌊|v - c.maxVariance|⌋₊ = false →
      afProcess s c v = ({ s with ignoreFrame := 10 }, c))) ∧
    (c.maxVariance ≠ 0 →
      (afRatioExceeds c.maxVariance ⌊|v - c.maxVariance|⌋₊ = true ↔
        (⌊|v - c.maxVariance|⌋₊ : ℚ) / c.maxVariance > MaxChange)) ∧
    (c.maxVariance = 0 →
      (afRatioExceeds c.maxVariance ⌊|v - c.maxVariance|⌋₊ = true ↔
        ⌊|v - c.maxVariance|⌋₊ ≠ 0)) := by
  refine ⟨fun hr hz => ?_, fun hr hz => ?_, fun hr => ?_, fun hmv => ?_, fun hmv => ?_⟩
  · simp [afProcess, hst, hr, hz]
  · simp [afProcess, hst, hr, hz]
  · simp [afProcess, hst, hr]
  · simp [afRatioExceeds, hmv]
  · simp [afRatioExceeds, hmv]

/-- Witness for C2: with `maxVariance = 1`, current variance 3 and a budget of
5 frames, the truncated ratio is 2 > 0.8, so the budget drops to 4 and the
context is untouched; and with `maxVariance = 0` (a stable lock after a
uniform-scene scan), current variance 100 and an exhausted budget, the C++
ratio is `+inf`, so the controller resets to Scanning immediately. -/
theorem C2_witness :
    ((⟨3, 1, true⟩ : AfFrameContext).stable = true) ∧
    (afRatioExceeds (1 : ℚ) ⌊|(3 : ℚ) - 1|⌋₊ = true) ∧
    ((5 : ℕ) ≠ 0) ∧
    afProcess ⟨0, 0, 5⟩ ⟨3, 1, true⟩ 3 = (⟨0, 0, 4⟩, ⟨3, 1, true⟩) ∧
    ((⟨3, 0, true⟩ : AfFrameContext).stable = true) ∧
    (afRatioExceeds (0 : ℚ) ⌊|(100 : ℚ) - 0|⌋₊ = true) ∧
    afProcess ⟨7, 3, 0⟩ ⟨3, 0, true⟩ 100 = (⟨0, 3, 60⟩, ⟨0, 0, false⟩) := by
  have h2 : |(3 : ℚ) - 1| = 2 := by norm_num
  have hr1 : afRatioExceeds (1 : ℚ) ⌊|(3 : ℚ) - 1|⌋₊ = true := by
    rw [h2]
    norm_num [afRatioExceeds, MaxChange]
  have hr2 : afRatioExceeds (0 : ℚ) ⌊|(100 : ℚ) - 0|⌋₊ = true := by
    norm_num [afRatioExceeds]
  have hd := (C2_stable_mode_step ⟨0, 0, 5⟩ ⟨3, 1, true⟩ 3 rfl).2.1 hr1
    (by show (5 : ℕ) ≠ 0; omega)
  have hz := (C2_stable_mode_step ⟨7, 3, 0⟩ ⟨3, 0, true⟩ 100 rfl).1 hr2 rfl
  exact ⟨rfl, hr1, by omega, by rw [hd]; rfl, rfl, hr2, by rw [hz]⟩

/-! Section: Claim C3 -/

/-- C3 counterexample: with frame counter 10, filtered value 1 and new target
0.83, the target lies within ±20% of the filtered value (0.8 < 0.83 < 1.2), so
the claim requires the sqrt-speed; for a sqrt function with value 1/2 at 1/5
the claim predicts `1/2 * 0.83 + 1 * (1 - 1/2) = 183/200`, but the code — whose
band test is `filtered < 1.2 * target` and fails here — uses the base speed 1/5
and produces 483/500. -/
theorem C3_counterexample :
    (8 / 10 * (1 : ℚ) < 83 / 100 ∧ (83 : ℚ) / 100 < 12 / 10 * 1) ∧
    filterExposure (fun _ => 1 / 2) 10 1 (83 / 100) = 483 / 500 ∧
    ((483 : ℚ) / 500 ≠ (1 / 2) * (83 / 100) + 1 * (1 - 1 / 2)) := by
  refine ⟨⟨by norm_num, by norm_num⟩, ?_, by norm_num⟩
  norm_num [filterExposure, kNumStartupFrames]

/-- C3 (amended): the filter speed is 1 while the frame counter is below 10
and 1/5 afterwards; the sqrt-speed is taken exactly when the already-filtered
value lies strictly inside `(0.8, 1.2)` times the new target (not when the
target is within ±20% of the filtered value); a zero filter state is seeded
directly with the target; otherwise the update is
`speed * target + filtered * (1 - speed)`. -/
theorem C3_filter_exposure (sq : ℚ → ℚ) (fc : ℕ) (f c : ℚ) :
    (f = 0 → filterExposure sq fc f c = c) ∧
    (f ≠ 0 → fc < 10 → (f < 12 / 10 * c ∧ f > 8 / 10 * c) →
      filterExposure sq fc f c = sq 1 * c + f * (1 - sq 1)) ∧
    (f ≠ 0 → fc < 10 → ¬ (f < 12 / 10 * c ∧ f > 8 / 10 * c) →
      filterExposure sq fc f c = 1 * c + f * (1 - 1)) ∧
    (f ≠ 0 → 10 ≤ fc → (f < 12 / 10 * c ∧ f > 8 / 10 * c) →
      filterExposure sq fc f c = sq (1 / 5) * c + f * (1 - sq (1 / 5))) ∧
    (f ≠ 0 → 10 ≤ fc → ¬ (f < 12 / 10 * c ∧ f > 8 / 10 * c) →
      filterExposure sq fc f c = 1 / 5 * c + f * (1 - 1 / 5)) := by
  refine ⟨fun h0 => ?_, fun h0 hfc hband => ?_, fun h0 hfc hband => ?_,
    fun h0 hfc hband => ?_, fun h0 hfc hband => ?_⟩
  · simp [filterExposure, h0]
  · simp only [filterExposure, kNumStartupFrames]
    rw [if_neg h0, if_pos hband, if_pos hfc]
  · simp only [filterExposure, kNumStartupFrames]
    rw [if_neg h0, if_neg hband, if_pos hfc]
  · simp only [filterExposure, kNumStartupFrames]
    rw [if_neg h0, if_pos hband, if_neg (not_lt.mpr hfc)]
  · simp only [filterExposure, kNumStartupFrames]
    rw [if_neg h0, if_neg hband, if_neg (not_lt.mpr hfc)]

/-- Witness for C3: the startup-window base-speed branch at frame 5 with the
band test failing jumps straight to the target. -/
theorem C3_witness :
    ((1 : ℚ) ≠ 0) ∧ (5 : ℕ) < 10 ∧
    ¬ ((1 : ℚ) < 12 / 10 * 3 ∧ (1 : ℚ) > 8 / 10 * 3) ∧
    filterExposure (fun _ => 1 / 2) 5 1 3 = 1 * 3 + 1 * (1 - 1) := by
  refine ⟨by norm_num, by omega, by norm_num, ?_⟩
  exact (C3_filter_exposure (fun _ => 1 / 2) 5 1 3).2.2.1 (by norm_num) (by omega)
    (by norm_num)

/-! Section: Claim C5 -/

/-- C5 counterexample: for the internally inconsistent configuration with zero
output dimensions, `Af::configure` still returns 0 (success) and still resets
the frame context, overwriting a prior context whose focus target was 7 —
the claim's failure indication and untouched prior state do not happen; the
AGC configure also returns 0 unconditionally. -/
theorem C5_counterexample :
    (afConfigure 0 0).ret = 0 ∧
    (afConfigure 0 0).frameAf.focus = 0 ∧
    (⟨7, 5, true⟩ : AfFrameContext).focus ≠ (afConfigure 0 0).frameAf.focus ∧
    agcConfigureRet ⟨0, 0, 0, 0, 0, 0⟩ = 0 := by
  refine ⟨rfl, rfl, ?_, rfl⟩
  show (7 : ℕ) ≠ 0
  omega

/-- C5 (amended): neither configure operation validates its geometry or can
fail: `Af::configure` and `Agc::configure` return 0 for every input, including
zero dimensions, and `Af::configure` always overwrites the AF frame state with
focus 0, maxVariance 0, stable false and a fresh ignore budget of 10. -/
theorem C5_configure_always_succeeds (w h : ℕ) (raw : AgcRawConfig) :
    (afConfigure w h).ret = 0 ∧
    agcConfigureRet raw = 0 ∧
    (afConfigure w h).frameAf = ⟨0, 0, false⟩ ∧
    (afConfigure w h).ignoreFrame = 10 :=
  ⟨rfl, rfl, rfl, rfl⟩

/-! Section: Claim C6 -/

/-- C6: on an all-zero AF statistics buffer the accumulation loop of
`Af::process` breaks at `z = 0`, and `mean = total / z` divides by zero —
integer division by zero, which aborts instead of degrading to a sentinel:
the whole process step produces no result. -/
theorem C6_all_zero_buffer_aborts :
    afZ (fun _ => 0) = 0 ∧
    afMeanOpt (fun _ => 0) = none ∧
    afProcessStats ⟨0, 0, 10⟩ ⟨0, 0, false⟩ (fun _ => 0) = none :=
  ⟨rfl, rfl, rfl⟩

/-! Section: Claims C7 and C8 -/

theorem div_le_div_same_denom (a b c : ℚ) (h : a ≤ b) (hc : 0 ≤ c) :
    a / c ≤ b / c := by
  rcases hc.eq_or_lt with h0 | h0
  · rw [← h0]
    simp
  · exact (div_le_div_iff_of_pos_right h0).mpr h

theorem estimateLuminance_nonneg (awb : AwbGains) (grid : AgcGrid)
    (stats : ℕ → AwbCell) (gain : ℚ) (har : 0 ≤ awb.red) (hag : 0 ≤ awb.green)
    (hab : 0 ≤ awb.blue) (hgain : 0 ≤ gain) :
    0 ≤ estimateLuminance awb grid stats gain := by
  have hterm : ∀ x : ℕ, (0 : ℚ) ≤ min ((x : ℚ) * gain) 255 := fun x =>
    le_min (mul_nonneg (Nat.cast_nonneg x) hgain) (by norm_num)
  have hsum : ∀ f : ℕ → ℕ, (0 : ℚ) ≤
      ∑ y in Finset.range grid.height, ∑ x in Finset.range grid.width,
        min ((f (y * grid.stride + x) : ℚ) * gain) 255 := by
    intro f
    exact Finset.sum_nonneg fun y _ => Finset.sum_nonneg fun x _ => hterm _
  rw [estimateLuminance]
  apply div_nonneg _ (by norm_num)
  apply div_nonneg _ (mul_nonneg (Nat.cast_nonneg _) (Nat.cast_nonneg _))
  have h1 := hsum fun i => (stats i).R
  have h2 := hsum fun i => ((stats i).Gr + (stats i).Gb) / 2
  have h3 := hsum fun i => (stats i).B
  refine add_nonneg (add_nonneg ?_ ?_) ?_
  · exact mul_nonneg (mul_nonneg h1 har) (by norm_num)
  · exact mul_nonneg (mul_nonneg h2 hag) (by norm_num)
  · exact mul_nonneg (mul_nonneg h3 hab) (by norm_num)

/-- C7 counterexample: for an all-dark statistics buffer on a 1×1 grid the
histogram's entire mass sits in bin 0, the spec-modelled inter-quantile mean
is 0, and the quantile gain computation divides by that raw 0 — no additive
epsilon floors this divisor, contradicting the claim that every brightness
divisor in the gain computation is epsilon-clamped. -/
theorem C7_counterexample :
    measureBrightness ⟨1, 1, 1⟩ (fun _ => ⟨0, 0, 0, 0⟩) = 0 ∧
    agcIqMeanGain ⟨1, 1, 1⟩ (fun _ => ⟨0, 0, 0, 0⟩) =
      kEvGainTarget * (knumHistogramBins : ℚ) / 0 := by
  have hh : agcHist ⟨1, 1, 1⟩ (fun _ => ⟨0, 0, 0, 0⟩) = fun b => if 0 = b then 1 else 0 := by
    funext b
    simp [agcHist, Finset.sum_range_succ]
  have hcum : ∀ m, histCumul (agcHist ⟨1, 1, 1⟩ (fun _ => ⟨0, 0, 0, 0⟩)) m
      = if 0 ∈ Finset.range m then 1 else 0 := by
    intro m
    rw [histCumul, hh]
    exact Finset.sum_ite_eq (Finset.range m) 0 (fun _ => 1)
  have hmb : measureBrightness ⟨1, 1, 1⟩ (fun _ => ⟨0, 0, 0, 0⟩) = 0 := by
    rw [measureBrightness, interQuantileMean]
    have hnum : ∀ b ∈ Finset.range knumHistogramBins,
        (b : ℚ) * binWeight (agcHist ⟨1, 1, 1⟩ (fun _ => ⟨0, 0, 0, 0⟩))
          (98 / 100 * (histCumul (agcHist ⟨1, 1, 1⟩ (fun _ => ⟨0, 0, 0, 0⟩)) knumHistogramBins : ℚ))
          (1 * (histCumul (agcHist ⟨1, 1, 1⟩ (fun _ => ⟨0, 0, 0, 0⟩)) knumHistogramBins : ℚ)) b = 0 := by
      intro b _
      rcases Nat.eq_zero_or_pos b with hb0 | hb1
      · simp [hb0]
      · have hwb : binWeight (agcHist ⟨1, 1, 1⟩ (fun _ => ⟨0, 0, 0, 0⟩))
            (98 / 100 * (histCumul (agcHist ⟨1, 1, 1⟩ (fun _ => ⟨0, 0, 0, 0⟩)) knumHistogramBins : ℚ))
            (1 * (histCumul (agcHist ⟨1, 1, 1⟩ (fun _ => ⟨0, 0, 0, 0⟩)) knumHistogramBins : ℚ)) b = 0 := by
          rw [binWeight, hcum b, hcum (b + 1), hcum knumHistogramBins]
          have h1 : (0 : ℕ) ∈ Finset.range b := Finset.mem_range.mpr hb1
          have h2 : (0 : ℕ) ∈ Finset.range (b + 1) := Finset.mem_range.mpr (Nat.succ_pos b)
          have h3 : (0 : ℕ) ∈ Finset.range knumHistogramBins := by
            simp [knumHistogramBins]
          rw [if_pos h1, if_pos h2, if_pos h3]
          norm_num
        rw [hwb, mul_zero]
    rw [Finset.sum_congr rfl hnum]
    simp
  exact ⟨hmb, by rw [agcIqMeanGain, hmb]⟩

/-- C7 (amended): only the luminance estimator's divisor carries the additive
epsilon floor: the estimated luminance is non-negative for non-negative AWB
gains and trial gain, so `yValue + 0.001` is strictly positive and the
luminance division can never divide by zero; the quantile gain instead divides
by the raw inter-quantile mean with no epsilon (see the counterexample). -/
theorem C7_luminance_divisor_positive (awb : AwbGains) (grid : AgcGrid)
    (stats : ℕ → AwbCell) (gain : ℚ) (har : 0 ≤ awb.red) (hag : 0 ≤ awb.green)
    (hab : 0 ≤ awb.blue) (hgain : 0 ≤ gain) :
    0 ≤ estimateLuminance awb grid stats gain ∧
    0 < estimateLuminance awb grid stats gain + 1 / 1000 ∧
    agcExtraGain awb grid stats gain =
      min 10 (kRelativeLuminanceTarget /
        (estimateLuminance awb grid stats gain + 1 / 1000)) := by
  have hnn := estimateLuminance_nonneg awb grid stats gain har hag hab hgain
  exact ⟨hnn, by linarith, rfl⟩

/-- Witness for C7: unit AWB gains, trial gain 1, a 1×1 grid and a mid-grey
cell give a strictly positive epsilon-floored divisor. -/
theorem C7_witness :
    ((0 : ℚ) ≤ 1) ∧
    0 ≤ estimateLuminance ⟨1, 1, 1⟩ ⟨1, 1, 1⟩ (fun _ => ⟨128, 128, 128, 128⟩) 1 ∧
    0 < estimateLuminance ⟨1, 1, 1⟩ ⟨1, 1, 1⟩ (fun _ => ⟨128, 128, 128, 128⟩) 1 + 1 / 1000 := by
  have h := C7_luminance_divisor_positive ⟨1, 1, 1⟩ ⟨1, 1, 1⟩
    (fun _ => ⟨128, 128, 128, 128⟩) 1 (by norm_num) (by norm_num) (by norm_num) (by norm_num)
  exact ⟨by norm_num, h.1, h.2.1⟩

/-- C8 counterexample: on a 1×1 grid with a pure-green cell (Gr = Gb = 100)
and unit red/blue AWB gains, raising the green AWB gain from 1 to 2 makes the
luminance-based gain estimate drop from 8160/11791 to 8160/23531 — increasing
the green gain does decrease the computed estimate, refuting the claimed
non-decreasing monotonicity. -/
theorem C8_counterexample :
    agcYGain ⟨1, 2, 1⟩ ⟨1, 1, 1⟩ (fun _ => ⟨0, 100, 100, 0⟩) <
      agcYGain ⟨1, 1, 1⟩ ⟨1, 1, 1⟩ (fun _ => ⟨0, 100, 100, 0⟩) := by
  norm_num [agcYGain, yGainLoop, agcExtraGain, estimateLuminance,
    kRelativeLuminanceTarget, Finset.sum_range_succ]

/-- C8 (amended): increasing the AWB green gain does not decrease the
estimated relative luminance at any fixed trial gain, and therefore does not
increase the per-iteration gain-correction factor `extraGain`; the final
looped estimate itself is antitone in simple cases but not monotone in either
direction in general because of the 1.01 early-exit threshold (see the
counterexample for the claimed direction). -/
theorem C8_luminance_monotone_gain_antitone (grid : AgcGrid)
    (stats : ℕ → AwbCell) (ar ab g g' γ : ℚ) (har : 0 ≤ ar) (hab : 0 ≤ ab)
    (hγ : 0 ≤ γ) (hg : 0 ≤ g) (hgg : g ≤ g') :
    estimateLuminance ⟨ar, g, ab⟩ grid stats γ ≤
      estimateLuminance ⟨ar, g', ab⟩ grid stats γ ∧
    agcExtraGain ⟨ar, g', ab⟩ grid stats γ ≤ agcExtraGain ⟨ar, g, ab⟩ grid stats γ := by
  have hGnn : (0 : ℚ) ≤
      ∑ y in Finset.range grid.height, ∑ x in Finset.range grid.width,
        min (((((stats (y * grid.stride + x)).Gr + (stats (y * grid.stride + x)).Gb) / 2 : ℕ) : ℚ) * γ) 255 :=
    Finset.sum_nonneg fun y _ => Finset.sum_nonneg fun x _ =>
      le_min (mul_nonneg (Nat.cast_nonneg _) hγ) (by norm_num)
  have hlum : estimateLuminance ⟨ar, g, ab⟩ grid stats γ ≤
      estimateLuminance ⟨ar, g', ab⟩ grid stats γ := by
    rw [estimateLuminance, estimateLuminance]
    apply div_le_div_same_denom _ _ _ _ (by norm_num)
    apply div_le_div_same_denom _ _ _ _
      (mul_nonneg (Nat.cast_nonneg _) (Nat.cast_nonneg _))
    refine add_le_add (add_le_add le_rfl ?_) le_rfl
    exact mul_le_mul_of_nonneg_right (mul_le_mul_of_nonneg_left hgg hGnn) (by norm_num)
  refine ⟨hlum, ?_⟩
  rw [agcExtraGain, agcExtraGain]
  apply min_le_min le_rfl
  have hnn := estimateLuminance_nonneg ⟨ar, g, ab⟩ grid stats γ har hg hab hγ
  apply div_le_div_of_nonneg_left _ (by linarith) (by linarith)
  unfold kRelativeLuminanceTarget
  norm_num

/-- Witness for C8: the pure-green 1×1 cell with green gain raised from 1 to
2 has a non-decreasing luminance and a non-increasing correction factor. -/
theorem C8_witness :
    ((0 : ℚ) ≤ 1) ∧ ((1 : ℚ) ≤ 2) ∧
    estimateLuminance ⟨1, 1, 1⟩ ⟨1, 1, 1⟩ (fun _ => ⟨0, 100, 100, 0⟩) 1 ≤
      estimateLuminance ⟨1, 2, 1⟩ ⟨1, 1, 1⟩ (fun _ => ⟨0, 100, 100, 0⟩) 1 ∧
    agcExtraGain ⟨1, 2, 1⟩ ⟨1, 1, 1⟩ (fun _ => ⟨0, 100, 100, 0⟩) 1 ≤
      agcExtraGain ⟨1, 1, 1⟩ ⟨1, 1, 1⟩ (fun _ => ⟨0, 100, 100, 0⟩) 1 := by
  have h := C8_luminance_monotone_gain_antitone ⟨1, 1, 1⟩
    (fun _ => ⟨0, 100, 100, 0⟩) 1 1 1 2 1 (by norm_num) (by norm_num)
    (by norm_num) (by norm_num) (by norm_num)
  exact ⟨by norm_num, by norm_num, h.1, h.2⟩

/-! Section: Claims C4 and C10 -/

/-- The filter keeps its state inside `[0, M]` whenever its inputs are and
the abstract square root stays in `[0, 1]` on the two speeds 1 and 1/5. -/
theorem filterExposure_mem (sq : ℚ → ℚ) (fc : ℕ) (f c M : ℚ)
    (hs1 : 0 ≤ sq 1 ∧ sq 1 ≤ 1) (hs5 : 0 ≤ sq (1 / 5) ∧ sq (1 / 5) ≤ 1)
    (hf0 : 0 ≤ f) (hfM : f ≤ M) (hc0 : 0 ≤ c) (hcM : c ≤ M) :
    0 ≤ filterExposure sq fc f c ∧ filterExposure sq fc f c ≤ M := by
  rw [filterExposure]
  by_cases h0 : f = 0
  · rw [if_pos h0]
    exact ⟨hc0, hcM⟩
  · rw [if_neg h0]
    have hspeed : ∀ s : ℚ, 0 ≤ s → s ≤ 1 →
        0 ≤ s * c + f * (1 - s) ∧ s * c + f * (1 - s) ≤ M := by
      intro s hs0 hs1'
      constructor
      · exact add_nonneg (mul_nonneg hs0 hc0) (mul_nonneg hf0 (by linarith))
      · have h1 : s * c ≤ s * M := mul_le_mul_of_nonneg_left hcM hs0
        have h2 : f * (1 - s) ≤ M * (1 - s) :=
          mul_le_mul_of_nonneg_right hfM (by linarith)
        nlinarith
    split
    · split
      · exact hspeed _ hs1.1 hs1.2
      · exact hspeed _ hs5.1 hs5.2
    · split
      · exact hspeed 1 (by norm_num) (by norm_num)
      · exact hspeed (1 / 5) (by norm_num) (by norm_num)

/-- One `Agc::process` step keeps the filtered exposure inside
`[0, maxShutter * maxGain]`. -/
theorem computeExposure_filtered_mem (cfg : AgcCfg) (sq : ℚ → ℚ) (fc : ℕ)
    (f : ℚ) (se : ℕ) (sg yg iqg : ℚ)
    (hs1 : 0 ≤ sq 1 ∧ sq 1 ≤ 1) (hs5 : 0 ≤ sq (1 / 5) ∧ sq (1 / 5) ≤ 1)
    (hl : 0 ≤ cfg.lineDuration) (hM : 0 ≤ cfg.maxShutter * cfg.maxGain)
    (hf0 : 0 ≤ f) (hfM : f ≤ cfg.maxShutter * cfg.maxGain)
    (hsg : 0 ≤ sg) (hyg : 0 ≤ yg) :
    0 ≤ (computeExposure cfg sq fc f se sg yg iqg).filtered ∧
    (computeExposure cfg sq fc f se sg yg iqg).filtered ≤
      cfg.maxShutter * cfg.maxGain := by
  have hev : 0 ≤ max yg iqg := le_trans hyg (le_max_left _ _)
  have hcur0 : 0 ≤ min ((se : ℚ) * cfg.lineDuration * sg * max yg iqg)
      (cfg.maxShutter * cfg.maxGain) :=
    le_min (mul_nonneg (mul_nonneg (mul_nonneg (Nat.cast_nonneg se) hl) hsg) hev) hM
  have hcurM : min ((se : ℚ) * cfg.lineDuration * sg * max yg iqg)
      (cfg.maxShutter * cfg.maxGain) ≤ cfg.maxShutter * cfg.maxGain :=
    min_le_right _ _
  exact filterExposure_mem sq fc f _ _ hs1 hs5 hf0 hfM hcur0 hcurM

/-- C4: across any sequence of `Agc::process` calls after configuration, the
filtered target exposure stays within `[0, maxShutter * maxGain]` — starting
from the zero-seeded filter state, every step clamps the raw target to the
session maximum `maxShutter * maxGain` before filtering and the filter cannot
move the value outside the interval, provided the abstract square root maps
the speeds 1 and 1/5 into `[0, 1]` as the real one does. -/
theorem C4_filtered_exposure_bounded (cfg : AgcCfg) (sq : ℚ → ℚ)
    (l : List AgcInput)
    (hs1 : 0 ≤ sq 1 ∧ sq 1 ≤ 1) (hs5 : 0 ≤ sq (1 / 5) ∧ sq (1 / 5) ≤ 1)
    (hl : 0 ≤ cfg.lineDuration) (hM : 0 ≤ cfg.maxShutter * cfg.maxGain)
    (hin : ∀ i ∈ l, 0 ≤ i.sensorGain ∧ 0 ≤ i.yGain) :
    (0 ≤ (agcRun cfg sq l (0, 0)).2 ∧
      (agcRun cfg sq l (0, 0)).2 ≤ cfg.maxShutter * cfg.maxGain) ∧
    (∀ fc f se sg yg iqg,
      (computeExposure cfg sq fc f se sg yg iqg).currentExposure ≤
        cfg.maxShutter * cfg.maxGain) := by
  constructor
  · have hgen : ∀ (l' : List AgcInput) (st : ℕ × ℚ),
        (∀ i ∈ l', 0 ≤ i.sensorGain ∧ 0 ≤ i.yGain) →
        0 ≤ st.2 → st.2 ≤ cfg.maxShutter * cfg.maxGain →
        0 ≤ (agcRun cfg sq l' st).2 ∧
          (agcRun cfg sq l' st).2 ≤ cfg.maxShutter * cfg.maxGain := by
      intro l'
      induction l' with
      | nil => intro st _ h0 hM'; exact ⟨h0, hM'⟩
      | cons i rest ih =>
          intro st hin' h0 hM'
          have hi := hin' i (List.mem_cons_self i rest)
          have hstep := computeExposure_filtered_mem cfg sq st.1 st.2
            i.sensorExposure i.sensorGain i.yGain i.iqMeanGain hs1 hs5 hl hM
            h0 hM' hi.1 hi.2
          exact ih _ (fun j hj => hin' j (List.mem_cons_of_mem i hj))
            hstep.1 hstep.2
    exact hgen l (0, 0) hin le_rfl hM
  · intro fc f se sg yg iqg
    exact min_le_right _ _

/-- Witness for C4: a single process call with unit gains on a session whose
exposure-value ceiling is `(3/50) * 8`. -/
theorem C4_witness :
    ((0 : ℚ) ≤ id (1 : ℚ) ∧ id (1 : ℚ) ≤ 1) ∧
    ((0 : ℚ) ≤ (⟨1 / 1000, 1 / 1000, 3 / 50, 1, 8⟩ : AgcCfg).lineDuration) ∧
    (0 ≤ (agcRun ⟨1 / 1000, 1 / 1000, 3 / 50, 1, 8⟩ id [⟨100, 1, 1, 1⟩] (0, 0)).2 ∧
      (agcRun ⟨1 / 1000, 1 / 1000, 3 / 50, 1, 8⟩ id [⟨100, 1, 1, 1⟩] (0, 0)).2 ≤
        (⟨1 / 1000, 1 / 1000, 3 / 50, 1, 8⟩ : AgcCfg).maxShutter *
          (⟨1 / 1000, 1 / 1000, 3 / 50, 1, 8⟩ : AgcCfg).maxGain) := by
  have h := C4_filtered_exposure_bounded ⟨1 / 1000, 1 / 1000, 3 / 50, 1, 8⟩ id
    [⟨100, 1, 1, 1⟩] (by constructor <;> norm_num) (by constructor <;> norm_num)
    (by norm_num) (by norm_num)
    (by
      rintro i hi
      rw [List.mem_singleton] at hi
      subst hi
      constructor <;> norm_num)
  exact ⟨⟨by norm_num, by norm_num⟩, by norm_num, h.1⟩

/-- Bounds of the C++ `std::clamp` when the range is non-empty. -/
theorem clampQ_mem (v lo hi : ℚ) (h : lo ≤ hi) :
    lo ≤ clampQ v lo hi ∧ clampQ v lo hi ≤ hi := by
  rw [clampQ]
  split
  · exact ⟨le_rfl, h⟩
  · split
    · exact ⟨h, le_rfl⟩
    · constructor <;> linarith [not_lt.mp (by assumption : ¬ v < lo)]

/-- C10 counterexample: with line duration 1 ms and a degenerate but valid
configured shutter range `[1.5 ms, 1.5 ms]`, the shutter time is 1.5 ms but
the context exposure written is the truncated line count 1, and no shutter
time inside the resolved session range divides by the line duration to give
exactly 1 — the written exposure does not equal an in-range shutter time
divided by the line duration. -/
theorem C10_counterexample :
    (computeExposure (agcConfigure ⟨1, 1000, 3 / 2000, 3 / 2000, 1, 1⟩)
      (fun _ => 1 / 2) 20 (1 / 1000) 100 1 1 1).ctxExposure = 1 ∧
    (computeExposure (agcConfigure ⟨1, 1000, 3 / 2000, 3 / 2000, 1, 1⟩)
      (fun _ => 1 / 2) 20 (1 / 1000) 100 1 1 1).shutterTime = 3 / 2000 ∧
    ¬ ∃ s : ℚ, 3 / 2000 ≤ s ∧ s ≤ min (3 / 2000) kMaxShutterSpeed ∧
      (1 : ℚ) = s / ((1 : ℚ) / 1000) := by
  have hshut : (computeExposure (agcConfigure ⟨1, 1000, 3 / 2000, 3 / 2000, 1, 1⟩)
      (fun _ => 1 / 2) 20 (1 / 1000) 100 1 1 1).shutterTime = 3 / 2000 := by
    norm_num [computeExposure, agcConfigure, filterExposure, clampQ,
      kNumStartupFrames, kMaxShutterSpeed, kMinAnalogueGain, kMaxAnalogueGain]
  refine ⟨?_, hshut, ?_⟩
  · show ⌊(computeExposure (agcConfigure ⟨1, 1000, 3 / 2000, 3 / 2000, 1, 1⟩)
        (fun _ => 1 / 2) 20 (1 / 1000) 100 1 1 1).shutterTime /
        (agcConfigure ⟨1, 1000, 3 / 2000, 3 / 2000, 1, 1⟩).lineDuration⌋₊ = 1
    rw [hshut]
    have hld : (agcConfigure ⟨1, 1000, 3 / 2000, 3 / 2000, 1, 1⟩).lineDuration
        = 1 / 1000 := by
      norm_num [agcConfigure]
    rw [hld]
    have : (3 : ℚ) / 2000 / (1 / 1000) = 3 / 2 := by norm_num
    rw [this]
    rw [Nat.floor_eq_iff (by norm_num)]
    norm_num
  · rintro ⟨s, h1, h2, h3⟩
    have hs : s = 3 / 2000 := by
      have h2' : s ≤ 3 / 2000 := le_trans h2 (min_le_left _ _)
      linarith
    rw [hs] at h3
    norm_num at h3

/-- C10 (amended): after a successful configure with non-empty resolved
ranges, the analogue gain written to the context lies within
`[max(minGain, 1), min(maxGain, 8)]` and the computed shutter time lies within
`[minShutter, min(maxShutter, 60 ms)]`; the exposure written to the context is
the integer truncation of that shutter time divided by the line duration (not
the exact quotient). -/
theorem C10_output_limits (raw : AgcRawConfig) (sq : ℚ → ℚ) (fc : ℕ)
    (f : ℚ) (se : ℕ) (sg yg iqg : ℚ)
    (hgain : max raw.minGain kMinAnalogueGain ≤ min raw.maxGain kMaxAnalogueGain)
    (hshut : raw.minShutter ≤ min raw.maxShutter kMaxShutterSpeed) :
    (max raw.minGain kMinAnalogueGain ≤
        (computeExposure (agcConfigure raw) sq fc f se sg yg iqg).ctxGain ∧
      (computeExposure (agcConfigure raw) sq fc f se sg yg iqg).ctxGain ≤
        min raw.maxGain kMaxAnalogueGain) ∧
    (raw.minShutter ≤
        (computeExposure (agcConfigure raw) sq fc f se sg yg iqg).shutterTime ∧
      (computeExposure (agcConfigure raw) sq fc f se sg yg iqg).shutterTime ≤
        min raw.maxShutter kMaxShutterSpeed) ∧
    (computeExposure (agcConfigure raw) sq fc f se sg yg iqg).ctxExposure =
      ⌊(computeExposure (agcConfigure raw) sq fc f se sg yg iqg).shutterTime /
        (agcConfigure raw).lineDuration⌋₊ := by
  refine ⟨?_, ?_, rfl⟩
  · exact clampQ_mem _ _ _ hgain
  · exact clampQ_mem _ _ _ hshut

/-- Witness for C10: a realistic configuration (1 kHz line rate, shutter range
`[1 ms, 60 ms]`, gain range `[1, 8]`). -/
theorem C10_witness :
    (max (1 : ℚ) kMinAnalogueGain ≤ min 8 kMaxAnalogueGain) ∧
    ((1 : ℚ) / 1000 ≤ min (3 / 50) kMaxShutterSpeed) ∧
    (max (1 : ℚ) kMinAnalogueGain ≤
      (computeExposure (agcConfigure ⟨1, 1000, 1 / 1000, 3 / 50, 1, 8⟩) id 0 0 0 0 0 0).ctxGain ∧
      (computeExposure (agcConfigure ⟨1, 1000, 1 / 1000, 3 / 50, 1, 8⟩) id 0 0 0 0 0 0).ctxGain ≤
        min 8 kMaxAnalogueGain) ∧
    ((1 : ℚ) / 1000 ≤
      (computeExposure (agcConfigure ⟨1, 1000, 1 / 1000, 3 / 50, 1, 8⟩) id 0 0 0 0 0 0).shutterTime ∧
      (computeExposure (agcConfigure ⟨1, 1000, 1 / 1000, 3 / 50, 1, 8⟩) id 0 0 0 0 0 0).shutterTime ≤
        min (3 / 50) kMaxShutterSpeed) := by
  have h := C10_output_limits ⟨1, 1000, 1 / 1000, 3 / 50, 1, 8⟩ id 0 0 0 0 0 0
    (by norm_num [kMinAnalogueGain, kMaxAnalogueGain])
    (by norm_num [kMaxShutterSpeed])
  exact ⟨by norm_num [kMinAnalogueGain, kMaxAnalogueGain],
    by norm_num [kMaxShutterSpeed], h.1, h.2.1⟩

end Ipu3
